import Mathlib

/-!
Shallow embedding of `src/pogodata/pogodata.py` (class `PogoData`).

Python values appearing in the data flow (JSON payloads, keyword-argument
criteria, attribute values) are modelled by `JVal`.  Python `dict`s are
modelled as association lists with insert-or-replace-in-place semantics
(`pyInsert`), which preserves Python's insertion order.  Fallible Python
code (statements that can raise) is modelled with `Except PyErr`; the
`PyErr` constructors name the exception class that the corresponding
Python statement raises.
-/

/-- A Python value as it appears in the JSON payloads and query criteria. -/
inductive JVal where
  | jnull
  | jbool (b : Bool)
  | jnum (n : Int)
  | jstr (s : String)
  | jarr (xs : List JVal)
  | jobj (fields : List (String × JVal))

/-- The Python exception kinds raised by the embedded code. -/
inductive PyErr where
  | keyError
  | indexError
  | attributeError
  | typeError
  | valueError
deriving DecidableEq

mutual

/-- Python `==` on values; container comparison is element-wise.  (The
embedded queries only ever compare `None`, booleans, numbers and strings,
where this agrees with Python.) -/
def jeq : JVal → JVal → Bool
  | .jnull, .jnull => true
  | .jbool a, .jbool b => a == b
  | .jnum a, .jnum b => a == b
  | .jstr a, .jstr b => a == b
  | .jarr a, .jarr b => jeqList a b
  | .jobj a, .jobj b => jeqFields a b
  | _, _ => false

/-- Element-wise `==` on Python lists. -/
def jeqList : List JVal → List JVal → Bool
  | [], [] => true
  | a :: xs, b :: ys => jeq a b && jeqList xs ys
  | _, _ => false

/-- Entry-wise `==` on Python dicts (as ordered association lists). -/
def jeqFields : List (String × JVal) → List (String × JVal) → Bool
  | [], [] => true
  | (k1, v1) :: xs, (k2, v2) :: ys => k1 == k2 && jeq v1 v2 && jeqFields xs ys
  | _, _ => false

end

/-- Python truthiness (`if x:`) for the modelled values. -/
def JVal.truthy : JVal → Bool
  | .jnull => false
  | .jbool b => b
  | .jnum n => n != 0
  | .jstr s => s != ""
  | .jarr xs => !xs.isEmpty
  | .jobj fields => !fields.isEmpty

/-- `d.get(k)` on a Python dict modelled as an ordered association list. -/
def assocGet {κ α : Type} [DecidableEq κ] : List (κ × α) → κ → Option α
  | [], _ => none
  | (k', v) :: rest, k => if k' = k then some v else assocGet rest k

/-- `d[k] = v` on a Python dict: replaces the value in place if the key
exists, otherwise appends the pair (insertion order is preserved). -/
def pyInsert {κ α : Type} [DecidableEq κ] : List (κ × α) → κ → α → List (κ × α)
  | [], k, v => [(k, v)]
  | (k', v') :: rest, k, v =>
    if k' = k then (k', v) :: rest else (k', v') :: pyInsert rest k v

/-- Python `str.lower()` (ASCII, as used by the locale and enum keys). -/
def lcStr (s : String) : String := ⟨s.data.map Char.toLower⟩

/-- Python `s.startswith(pre)`. -/
def pyStartswith (s pre : String) : Bool := pre.data.isPrefixOf s.data

/-! ## String helpers used by `get_enum` (modelling `str.split` and the
fixed regular expression `enum {name} \x7b[^\x7d]*\x7d` with `re.IGNORECASE`) -/

/-- Python `text.split(sep)` restricted to the first occurrence of `sep`:
returns the parts before and after the first occurrence, or `none` when
`sep` does not occur. -/
def splitOnFirst (sep : List Char) : List Char → Option (List Char × List Char)
  | [] => if sep.isEmpty then some ([], []) else none
  | c :: rest =>
    if sep.isPrefixOf (c :: rest) then some ([], (c :: rest).drop sep.length)
    else (splitOnFirst sep rest).map (fun p => (c :: p.1, p.2))

/-- Python `text.split(sep)[0]`: the part before the first occurrence of
`sep`, or the whole text when `sep` does not occur. -/
def splitPart0 (sep : List Char) (text : List Char) : List Char :=
  match splitOnFirst sep text with
  | some (pre, _) => pre
  | none => text

/-- Python `text.split(sep)[1]` given that `sep` occurs at least once in
`text`: the part between the first and second occurrence of `sep` (or the
rest of the text when `sep` occurs only once). -/
def splitPart1 (sep : List Char) (afterFirst : List Char) : List Char :=
  match splitOnFirst sep afterFirst with
  | some (mid, _) => mid
  | none => afterFirst

/-- Python `text.split(sep)` on a single-character separator. -/
def splitChar (sep : Char) : List Char → List (List Char)
  | [] => [[]]
  | c :: rest =>
    if c = sep then [] :: splitChar sep rest
    else
      match splitChar sep rest with
      | [] => [[c]]
      | l :: ls => (c :: l) :: ls

/-- ASCII decimal digit test. -/
def isDigitChar (c : Char) : Bool := '0' ≤ c && c ≤ '9'

/-- Digit-string to number; `none` when the string is empty or has a
non-digit character. -/
def digitsToNat (ds : List Char) : Option Nat :=
  if ds.isEmpty || !(ds.all isDigitChar) then none
  else some (ds.foldl (fun a c => a * 10 + (c.toNat - '0'.toNat)) 0)

/-- Python `int(s)` on a string: optional surrounding whitespace, optional
sign, decimal digits; `none` models the `ValueError` raised otherwise. -/
def pyInt (cs : List Char) : Option Int :=
  let cs := cs.dropWhile Char.isWhitespace
  let cs := (cs.reverse.dropWhile Char.isWhitespace).reverse
  match cs with
  | '-' :: ds => (digitsToNat ds).map (fun n => -(n : Int))
  | '+' :: ds => (digitsToNat ds).map (fun n => (n : Int))
  | ds => (digitsToNat ds).map (fun n => (n : Int))

/-- The literal part of the enum regular expression before the block body:
`"enum " + name + " \x7b"`. -/
def enumPat (name : List Char) : List Char :=
  ("enum ".data) ++ name ++ (" \x7b".data)

/-- One attempt of the regular expression `enum {name} \x7b[^\x7d]*\x7d`
(with `re.IGNORECASE`) anchored at the start of `text`: on success returns
the matched substring (in its original casing, as `re.findall` does). -/
def matchEnumAt (name text : List Char) : Option (List Char) :=
  if ((enumPat name).map Char.toLower).isPrefixOf (text.map Char.toLower) then
    let rest := text.drop (enumPat name).length
    let body := rest.takeWhile (fun c => c ≠ '\x7d')
    match rest.drop body.length with
    | '\x7d' :: _ => some (text.take (enumPat name).length ++ body ++ ['\x7d'])
    | _ => none
  else none

/-- The leftmost match of `enum {name} \x7b[^\x7d]*\x7d` in the protocol
text, i.e. `re.findall(...)[0]` when the findall result is non-empty. -/
def findEnumMatch (name : List Char) : List Char → Option (List Char)
  | [] => none
  | c :: rest =>
    match matchEnumAt name (c :: rest) with
    | some m => some m
    | none => findEnumMatch name rest

/-- One line of an enum block body: `k = entry.split(" =")[0]`,
`v = int(entry.split("= ")[1].split(";")[0])`, then `final[k] = v`. -/
def parseEnumLine (acc : List (String × Int)) (entry : List Char) :
    Except PyErr (List (String × Int)) :=
  let k := splitPart0 " =".data entry
  match splitOnFirst "= ".data entry with
  | none => .error .indexError
  | some (_, afterEq) =>
    let vpart := splitPart1 "= ".data afterEq
    let vstr := splitPart0 ";".data vpart
    match pyInt vstr with
    | none => .error .valueError
    | some v => .ok (pyInsert acc ⟨k⟩ v)

/-- Folds `parseEnumLine` over the block's lines. -/
def parseEnumLines (acc : List (String × Int)) :
    List (List Char) → Except PyErr (List (String × Int))
  | [] => .ok acc
  | entry :: rest =>
    match parseEnumLine acc entry with
    | .error e => .error e
    | .ok acc' => parseEnumLines acc' rest

/-- The body-parsing part of `get_enum`: strip tabs, take
`split("\x7b\n")[1]`, then `split("\n\x7d")[0]`, split into lines and
parse each `KEY = value;` line into the mapping. -/
def parseEnumBlock (blockChars : List Char) : Except PyErr (List (String × Int)) :=
  let proto := blockChars.filter (fun c => c ≠ '\t')
  match splitOnFirst "\x7b\n".data proto with
  | none => .error .indexError
  | some (_, afterBrace) =>
    let part1 := splitPart1 "\x7b\n".data afterBrace
    let body := splitPart0 "\n\x7d".data part1
    parseEnumLines [] (splitChar '\n' body)

/-- The enum cache `self.__cached_enums`, keyed by lower-cased enum name. -/
abbrev EnumCache := List (String × List (String × Int))

/-- The value returned by `get_enum`: a forward `str -> int` mapping, or
(on the `reverse` path) the inverted `int -> str` mapping. -/
inductive EnumResult where
  | fwd (m : List (String × Int))
  | rev (m : List (Int × String))

/-- The dict comprehension `{value: key for key, value in final.items()}`. -/
def invertEnum (m : List (String × Int)) : List (Int × String) :=
  m.foldl (fun acc kv => pyInsert acc kv.2 kv.1) []

/-- `PogoData.get_enum(enum, reverse)`: serve a non-empty cached mapping
as-is (note: without applying `reverse`), otherwise find the enum block in
the protocol text case-insensitively, parse it, cache the forward mapping
under the lower-cased name, and return it (inverted when `reverse`).
Returns the result together with the cache after the call; a raised
exception leaves the cache unchanged. -/
def get_enum (cache : EnumCache) (raw_protos : String) (enum : String)
    (reverse : Bool) : Except PyErr EnumResult × EnumCache :=
  let hit :=
    match assocGet cache (lcStr enum) with
    | some m => if m.isEmpty then none else some m
    | none => none
  match hit with
  | some m => (.ok (.fwd m), cache)
  | none =>
    match findEnumMatch enum.data raw_protos.data with
    | none => (.error .keyError, cache)
    | some block =>
      match parseEnumBlock block with
      | .error e => (.error e, cache)
      | .ok final =>
        let cache' := pyInsert cache (lcStr enum) final
        if reverse then (.ok (.rev (invertEnum final)), cache')
        else (.ok (.fwd final), cache')

/-! ## Locale table (`reload`'s locale loop and `get_locale`) -/

/-- The loop `for i in range(0, len(raw_locale), 2): locale[raw_locale[i]]
= raw_locale[i+1]`; an odd-length array makes `raw_locale[i+1]` raise
`IndexError` on the last iteration.  Keys are stored verbatim (not
lower-cased). -/
def buildLocaleGo (acc : List (String × String)) :
    List String → Except PyErr (List (String × String))
  | [] => .ok acc
  | [_] => .error .indexError
  | k :: v :: rest => buildLocaleGo (pyInsert acc k v) rest

/-- The locale table built by `reload` from the flat alternating array. -/
def build_locale (raw_locale : List String) : Except PyErr (List (String × String)) :=
  buildLocaleGo [] raw_locale

/-- `PogoData.get_locale(key)`: `self.locale.get(key.lower(), "?")`. -/
def get_locale (locale : List (String × String)) (key : String) : String :=
  (assocGet locale (lcStr key)).getD "?"

/-- The consecutive (key, value) pairs of a flat alternating array. -/
def chunkPairs : List String → List (String × String)
  | k :: v :: rest => (k, v) :: chunkPairs rest
  | _ => []

/-- The even-indexed (key) elements of a flat alternating array. -/
def evenKeys (raw : List String) : List String := (chunkPairs raw).map (fun p => p.1)

/-- Follows the spec's words as amended for C4: scan the flat array in
pairs and return the value immediately following the first stored key that
equals the lower-cased query key; `"?"` when there is none. -/
def spec_lookup_locale (q : String) : List String → String
  | k :: v :: rest => if k = lcStr q then v else spec_lookup_locale q rest
  | _ => "?"

/-! ## Record source (`get_gamemaster`) -/

/-- Truthiness of the `settings` argument (`if settings:`): `None` and the
empty string are falsy. -/
def settingsTruthy : Option String → Bool
  | none => false
  | some s => s != ""

/-- `PogoData.get_gamemaster(pattern, settings)` with the application of
`re.search(pattern, templateid)` abstracted as the boolean predicate `p`
(the regular-expression engine is an external collaborator).  Walks the
record list in order; a record must be a dict (`entry.get`), its
`templateId` (default `""`) must be a string (`re.search` raises
`TypeError` otherwise); for a matching record, `data = entry.get("data",
\x7b\x7d)` and, when `settings` is truthy, `data = data.get(settings,
\x7b\x7d)` (which needs `data` to be a dict). -/
def get_gamemaster (p : String → Bool) (settings : Option String) :
    List JVal → Except PyErr (List (String × JVal))
  | [] => .ok []
  | entry :: rest =>
    match entry with
    | .jobj f =>
      match (assocGet f "templateId").getD (.jstr "") with
      | .jstr templateid =>
        if p templateid then
          let data := (assocGet f "data").getD (.jobj [])
          let dataRes : Except PyErr JVal :=
            if settingsTruthy settings then
              match data with
              | .jobj df => .ok ((assocGet df (settings.getD "")).getD (.jobj []))
              | _ => .error .attributeError
            else .ok data
          match dataRes with
          | .error e => .error e
          | .ok data' =>
            match get_gamemaster p settings rest with
            | .error e => .error e
            | .ok tail => .ok ((templateid, data') :: tail)
        else get_gamemaster p settings rest
      | _ => .error .typeError
    | _ => .error .attributeError

/-- Value of key `k` in a JSON object, with default `d` (also the default
when the value is not an object at all). -/
def jobjGetD (v : JVal) (k : String) (d : JVal) : JVal :=
  match v with
  | .jobj f => (assocGet f k).getD d
  | _ => d

/-- Follows the spec's words as amended for C9: yield, in input order, the
records whose `templateId` (default `""`) satisfies the match predicate;
the yielded data is the whole payload, except that a *non-empty* subkey
selects the payload's value at that subkey (empty mapping when absent). -/
def gm_select (p : String → Bool) (settings : Option String) (gm : List JVal) :
    List (String × JVal) :=
  gm.filterMap fun entry =>
    match entry with
    | .jobj f =>
      match (assocGet f "templateId").getD (.jstr "") with
      | .jstr tid =>
        if p tid then
          let data := (assocGet f "data").getD (.jobj [])
          some (tid, if settingsTruthy settings
                     then jobjGetD data (settings.getD "") (.jobj [])
                     else data)
        else none
      | _ => none
    | _ => none

/-- Entry well-formedness under which `get_gamemaster` cannot raise: the
record is a dict, its `templateId` (default `""`) is a string, and (when a
truthy subkey is used) its `data` (default `\x7b\x7d`) is a dict. -/
def gmEntryOk (settings : Option String) : JVal → Bool
  | .jobj f =>
    (match (assocGet f "templateId").getD (.jstr "") with
     | .jstr _ => true
     | _ => false)
    && (!settingsTruthy settings ||
        (match (assocGet f "data").getD (.jobj []) with
         | .jobj _ => true
         | _ => false))
  | _ => false

/-! ## Generic attribute-equality querying (`__get_object`) and the finders -/

/-- A self-contained entity (Type, Item, Move, Grunt), represented by its
attribute dictionary (`obj.__dict__`).

Modelled from the spec: the entity classes built by the factory modules
`game_objects.py`, `moves.py` and `grunts.py` are absent from `src/`; per
the spec they are self-contained records with no cross-references, so an
attribute dictionary represents them fully for querying purposes. -/
abbrev Entity := List (String × JVal)

/-- `obj.__dict__.get(key)` for a plain entity. -/
def entityAttr (e : Entity) (k : String) : Option JVal := assocGet e k

/-- The inner loop of `__get_object`: an object is wanted iff every
criterion key/value pair equals the object's attribute (a missing
attribute reads as `None`). -/
def matches_args {α : Type} (attr : α → String → Option JVal) (obj : α)
    (args : List (String × JVal)) : Bool :=
  args.all fun kv => jeq (((attr obj kv.1).getD .jnull)) kv.2

/-- `PogoData.__get_object(obj_list, args, match_one=True)`: the first
object matching all criteria, or `None`. -/
def get_object_one {α : Type} (attr : α → String → Option JVal)
    (obj_list : List α) (args : List (String × JVal)) : Option α :=
  obj_list.find? (fun o => matches_args attr o args)

/-- `PogoData.__get_object(obj_list, args, match_one=False)`: every
matching object, in list order. -/
def get_object_all {α : Type} (attr : α → String → Option JVal)
    (obj_list : List α) (args : List (String × JVal)) : List α :=
  obj_list.filter (fun o => matches_args attr o args)

/-- `PogoData.__get_object` with the `match_one` flag. -/
def get_object {α : Type} (attr : α → String → Option JVal)
    (obj_list : List α) (args : List (String × JVal)) (match_one : Bool) :
    Option α ⊕ List α :=
  if match_one then .inl (get_object_one attr obj_list args)
  else .inr (get_object_all attr obj_list args)

/-- Modelled from the spec: the creature entity class `Pokemon` (module
`mons.py`, absent from `src/`).  Scalar attributes follow section 3 of the
spec; `costume` is carried by the entity (the query scenario reads the
stored original as `costume == 0`); the `evolutions` and `temp_evolutions`
link lists are represented by the pass functions' return values below
(Lean structures are non-recursive), which is faithful because both lists
start empty and are only ever appended to by those passes. -/
structure Pokemon where
  template : String := ""
  id : Int := 0
  form : JVal := .jnum 0
  costume : JVal := .jnum 0
  name : String := "?"
  types : List (Option Entity) := []
  quick_moves : List (Option Entity) := []
  charge_moves : List (Option Entity) := []
  base_template : JVal := .jnull
  temp_evolution_template : JVal := .jnull
  temp_evolution_id : JVal := .jnull
  asset_value : JVal := .jnull
  asset_suffix : JVal := .jnull
  asset : String := ""
  raw : JVal := .jobj []

/-- `obj.__dict__.get(key)` for a creature: the scalar attributes of the
spec's data model (composite attributes are never used as criteria by the
embedded queries). -/
def Pokemon.attr (p : Pokemon) (k : String) : Option JVal :=
  match k with
  | "template" => some (.jstr p.template)
  | "id" => some (.jnum p.id)
  | "form" => some p.form
  | "costume" => some p.costume
  | "name" => some (.jstr p.name)
  | "base_template" => some p.base_template
  | "temp_evolution_template" => some p.temp_evolution_template
  | "temp_evolution_id" => some p.temp_evolution_id
  | "asset_value" => some p.asset_value
  | "asset_suffix" => some p.asset_suffix
  | "asset" => some (.jstr p.asset)
  | "raw" => some p.raw
  | _ => none

/-- A printable token of a scalar value, used in the asset identifier. -/
def jvalToken : JVal → String
  | .jnull => ""
  | .jbool b => toString b
  | .jnum n => toString n
  | .jstr s => s
  | .jarr _ => ""
  | .jobj _ => ""

/-- Modelled from the spec: the asset-identifier composition performed by
`Pokemon._gen_asset` (module `mons.py`, absent from `src/`) — an opaque
string composed from the creature's numeric id / form / costume / asset
fields; the exact naming scheme is an external convention, the core's
obligation is only to regenerate and store it when asset fields change. -/
def gen_asset_str (p : Pokemon) : String :=
  toString p.id ++ "_f" ++ jvalToken p.form ++ "_c" ++ jvalToken p.costume
    ++ "_" ++ jvalToken p.asset_value ++ jvalToken p.asset_suffix

/-- `mon._gen_asset()`: store the regenerated asset identifier. -/
def gen_asset (p : Pokemon) : Pokemon := { p with asset := gen_asset_str p }

/-- Python `value > 0` for the `costume` criterion (`True > 0` holds since
`bool` is an `int`; other types raise `TypeError` against an `int`). -/
def pyGtZero : JVal → Except PyErr Bool
  | .jnum n => .ok (decide (0 < n))
  | .jbool b => .ok b
  | _ => .error .typeError

/-- `PogoData.get_mon(get_one, **args)`: query the creature list through
`__get_object` with *all* criteria (including `costume`); when the
`costume` criterion is positive, call `.copy()` on the result, set the
copy's costume and regenerate its asset identifier.  `None.copy()` and
`list.costume = ...` raise `AttributeError`. -/
def get_mon (mons : List Pokemon) (args : List (String × JVal))
    (get_one : Bool) : Except PyErr (Option Pokemon ⊕ List Pokemon) :=
  let mon := get_object Pokemon.attr mons args get_one
  match pyGtZero ((assocGet args "costume").getD (.jnum 0)) with
  | .error e => .error e
  | .ok false => .ok mon
  | .ok true =>
    match mon with
    | .inl none => .error .attributeError
    | .inl (some m) =>
      let m' := { m with costume := (assocGet args "costume").getD (.jnum 0) }
      .ok (.inl (some (gen_asset m')))
    | .inr _ => .error .attributeError

/-- `PogoData.get_type(**args)`: when a `template` criterion is present
and does not start with `"POKEMON_TYPE_"`, rewrite it with that prefix,
then query the type list (`startswith` on a non-string raises). -/
def get_type (types : List Entity) (args : List (String × JVal)) :
    Except PyErr (Option Entity) :=
  match assocGet args "template" with
  | none => .ok (get_object_one entityAttr types args)
  | some (.jstr s) =>
    if pyStartswith s "POKEMON_TYPE_" then .ok (get_object_one entityAttr types args)
    else .ok (get_object_one entityAttr types
      (pyInsert args "template" (.jstr ("POKEMON_TYPE_" ++ s))))
  | some _ => .error .attributeError

/-- `PogoData.get_item(**args)`. -/
def get_item (items : List Entity) (args : List (String × JVal)) : Option Entity :=
  get_object_one entityAttr items args

/-- `PogoData.get_move(**args)`. -/
def get_move (moves : List Entity) (args : List (String × JVal)) : Option Entity :=
  get_object_one entityAttr moves args

/-- `PogoData.get_grunt(**args)`. -/
def get_grunt (grunts : List Entity) (args : List (String × JVal)) : Option Entity :=
  get_object_one entityAttr grunts args

/-! ## `__make_mon_list` Pass 1 (per-record base creature) -/

/-- `raw.get(k)` where `raw` must be a dict (`.get` on anything else
raises `AttributeError`). -/
def jRawGet (raw : JVal) (k : String) : Except PyErr (Option JVal) :=
  match raw with
  | .jobj f => .ok (assocGet f k)
  | _ => .error .attributeError

/-- Python iteration over a value: lists yield elements, strings yield
their characters, dicts yield their keys; other values raise `TypeError`. -/
def pyIter : JVal → Except PyErr (List JVal)
  | .jarr xs => .ok xs
  | .jstr s => .ok (s.data.map fun c => .jstr ⟨[c]⟩)
  | .jobj f => .ok (f.map fun kv => .jstr kv.1)
  | _ => .error .typeError

/-- `re.sub(r"^V\d\x7b4\x7d_POKEMON_", "", templateid)`: strip the
version tag when the template id starts with `V`, four digits and
`_POKEMON_`; otherwise the id is unchanged. -/
def strip_version_tag (tid : String) : String :=
  match tid.data with
  | 'V' :: a :: b :: c :: d :: rest =>
    if isDigitChar a && isDigitChar b && isDigitChar c && isDigitChar d
        && ("_POKEMON_".data).isPrefixOf rest
    then ⟨rest.drop 9⟩ else tid
  | _ => tid

/-- Python `str.zfill(w)`: left-pad with zeros after an optional sign. -/
def zfill (s : String) (w : Nat) : String :=
  if w ≤ s.data.length then s
  else
    match s.data with
    | '-' :: ds => ⟨'-' :: List.replicate (w - s.data.length) '0' ++ ds⟩
    | '+' :: ds => ⟨'+' :: List.replicate (w - s.data.length) '0' ++ ds⟩
    | ds => ⟨List.replicate (w - s.data.length) '0' ++ ds⟩

/-- Modelled from the spec: the `Pokemon(entry, form_id, template,
mon_id)` constructor (module `mons.py`, absent from `src/`): stores the
raw payload and the resolved form / template / id, with default values
for every other attribute. -/
def Pokemon.init (entry : JVal) (form_id : Int) (template : String)
    (mon_id : Int) : Pokemon :=
  { raw := entry, form := .jnum form_id, template := template, id := mon_id }

/-- One truthy raw type field resolved through `get_type`: the body of the
loop in `__typing` (`if typing: mon.types.append(self.get_type(template=
typing))`). -/
def typingOne (types_list : List Entity) (v : Option JVal) :
    Except PyErr (List (Option Entity)) :=
  match v with
  | some x =>
    if x.truthy then
      match get_type types_list [("template", x)] with
      | .error e => .error e
      | .ok r => .ok [r]
    else .ok []
  | none => .ok []

/-- The local helper `__typing(mon, type1ref, type2ref)` of
`__make_mon_list`: append a resolved Type reference for each truthy raw
type field, in order. -/
def typing_types (types_list : List Entity) (raw : JVal) (t1 t2 : String) :
    Except PyErr (List (Option Entity)) :=
  match jRawGet raw t1 with
  | .error e => .error e
  | .ok v1 =>
    match jRawGet raw t2 with
    | .error e => .error e
    | .ok v2 =>
      match typingOne types_list v1 with
      | .error e => .error e
      | .ok r1 =>
        match typingOne types_list v2 with
        | .error e => .error e
        | .ok r2 => .ok (r1 ++ r2)

/-- A raw move-identifier list resolved against the Move list:
`[self.get_move(template=t) for t in mon.raw.get(key, [])]`. -/
def resolveMoves (moves : List Entity) (raw : JVal) (key : String) :
    Except PyErr (List (Option Entity)) :=
  match jRawGet raw key with
  | .error e => .error e
  | .ok v =>
    match pyIter (v.getD (.jarr [])) with
    | .error e => .error e
    | .ok ts => .ok (ts.map fun t => get_move moves [("template", t)])

/-- Pass 1 of `__make_mon_list`, per record: strip the version tag from
the template id, resolve `form` and `id` through the two enums (default
0), build the name from the locale via the zero-padded id key, resolve the
move lists and the `type`/`type2` pair, and return the base creature. -/
def make_base_mon (types_list moves : List Entity)
    (forms mon_ids : List (String × Int)) (locale : List (String × String))
    (templateid : String) (entry : JVal) : Except PyErr Pokemon :=
  let template := strip_version_tag templateid
  let form_id := (assocGet forms template).getD 0
  let mon_id := (assocGet mon_ids template).getD 0
  let mon := Pokemon.init entry form_id template mon_id
  let locale_key := "pokemon_name_" ++ zfill (toString mon.id) 4
  let mon := { mon with name := get_locale locale locale_key }
  match resolveMoves moves mon.raw "quickMoves" with
  | .error e => .error e
  | .ok qm =>
    match resolveMoves moves mon.raw "cinematicMoves" with
    | .error e => .error e
    | .ok cm =>
      match typing_types types_list mon.raw "type" "type2" with
      | .error e => .error e
      | .ok tps => .ok { mon with quick_moves := qm, charge_moves := cm, types := tps }

/-! ## `__make_mon_list` Pass 4 (evolution linking) -/

/-- Substring test (Python `needle in haystack` on strings). -/
def substrMem (needle : List Char) : List Char → Bool
  | [] => needle.isEmpty
  | c :: rest => needle.isPrefixOf (c :: rest) || substrMem needle rest

/-- Python `key in v`: key membership for dicts, element membership for
lists, substring test for strings. -/
def pyContains (v : JVal) (key : String) : Except PyErr Bool :=
  match v with
  | .jobj f => .ok (assocGet f key).isSome
  | .jarr xs => .ok (xs.any fun x => jeq x (.jstr key))
  | .jstr s => .ok (substrMem key.data s.data)
  | _ => .error .typeError

/-- `evo_raw.get("form", evo_raw["evolution"])`: the default argument is
evaluated first, so a missing `"evolution"` key raises `KeyError` even
when `"form"` is present. -/
def evo_target (evo_raw : JVal) : Except PyErr JVal :=
  match evo_raw with
  | .jobj f =>
    match assocGet f "evolution" with
    | none => .error .keyError
    | some d => .ok ((assocGet f "form").getD d)
  | _ => .error .typeError

/-- The Pass-4 loop body over one creature's raw evolution-branch entries:
skip entries carrying `"temporaryEvolution"`; for the rest, look the
target template up with `get_mon(template=...)` and append the result —
whatever it is — to the list. -/
def link_loop (mons : List Pokemon) : List JVal → Except PyErr (List (Option Pokemon))
  | [] => .ok []
  | evo_raw :: rest =>
    match pyContains evo_raw "temporaryEvolution" with
    | .error e => .error e
    | .ok true => link_loop mons rest
    | .ok false =>
      match evo_target evo_raw with
      | .error e => .error e
      | .ok t =>
        match get_mon mons [("template", t)] true with
        | .ok (.inl evo) =>
          match link_loop mons rest with
          | .error e => .error e
          | .ok tail => .ok (evo :: tail)
        | .ok (.inr _) => .error .typeError
        | .error e => .error e

/-- Pass 4 for one creature: iterate `mon.raw.get("evolutionBranch", [])`
through `link_loop`; the returned list is the content of
`mon.evolutions` after the pass (it starts empty). -/
def link_evolutions (mons : List Pokemon) (mon : Pokemon) :
    Except PyErr (List (Option Pokemon)) :=
  match jRawGet mon.raw "evolutionBranch" with
  | .error e => .error e
  | .ok v =>
    match pyIter (v.getD (.jarr [])) with
    | .error e => .error e
    | .ok entries => link_loop mons entries

/-- An evolution-branch entry on which Pass 4 cannot raise: a dict that
carries `"temporaryEvolution"` or carries `"evolution"`. -/
def wellFormedBranch : JVal → Bool
  | .jobj f => (assocGet f "temporaryEvolution").isSome || (assocGet f "evolution").isSome
  | _ => false

/-- Follows the spec's words as amended for C3, per entry: a
temporary-evolution entry contributes nothing; any other entry contributes
exactly one element — the first creature whose template equals the target
template (form-specific field preferred, else the plain evolution field),
or `none` when no creature matches. -/
def branchResult (mons : List Pokemon) (e : JVal) : Option (Option Pokemon) :=
  match e with
  | .jobj f =>
    if (assocGet f "temporaryEvolution").isSome then none
    else some (get_object_one Pokemon.attr mons
      [("template", (assocGet f "form").getD ((assocGet f "evolution").getD .jnull))])
  | _ => none

/-! ## `__init__` / `reload` and the enum-cache lifecycle -/

/-- The upstream data a reload fetches (the game-master dump is consumed
by the pass functions above and does not interact with the enum cache or
the locale, so it is not carried here). -/
structure Sources where
  protos : String
  locale_raw : List String

/-- The persistent state relevant to the enum-cache and locale lifecycle:
`self.raw_protos`, `self.__cached_enums` and `self.locale`.  The entity
lists rebuilt by a reload are modelled by the standalone pass functions
above.

Modelled from the spec: the factory modules (`game_objects.py`,
`moves.py`, `grunts.py`, absent from `src/`) build self-contained lists
directly from RecordSource output and touch neither the enum cache nor
the locale. -/
structure PogoState where
  raw_protos : String := ""
  cached_enums : EnumCache := []
  locale : List (String × String) := []

/-- `PogoData.reload(language)`: store the freshly fetched protocol text,
rebuild the locale table (an odd-length source array raises out of
`reload`), then rebuild the lists; the creature-list build resolves, in
order, the `Form`, `HoloTemporaryEvolutionId`, `HoloPokemonId` and again
`Form` enums through `get_enum`, threading `self.__cached_enums` — which
`reload` itself never clears. -/
def reload (src : Sources) (st : PogoState) : Except PyErr PogoState :=
  let st1 : PogoState := { st with raw_protos := src.protos }
  match build_locale src.locale_raw with
  | .error e => .error e
  | .ok loc =>
    let st2 := { st1 with locale := loc }
    match get_enum st2.cached_enums st2.raw_protos "Form" false with
    | (.error e, _) => .error e
    | (.ok _, c1) =>
      match get_enum c1 st2.raw_protos "HoloTemporaryEvolutionId" false with
      | (.error e, _) => .error e
      | (.ok _, c2) =>
        match get_enum c2 st2.raw_protos "HoloPokemonId" false with
        | (.error e, _) => .error e
        | (.ok _, c3) =>
          match get_enum c3 st2.raw_protos "Form" false with
          | (.error e, _) => .error e
          | (.ok _, c4) => .ok { st2 with cached_enums := c4 }

/-- `PogoData.__init__`: start with an empty enum cache and reload. -/
def pogo_init (src : Sources) : Except PyErr PogoState :=
  reload src {}

/-! ## Concrete inputs used by the counterexample / failing-input theorems -/

/-- A stored catalog creature: the Pikachu of the query scenario
(`costume == 0`, the constructor default). -/
def c1_pikachu : Pokemon := { template := "PIKACHU" }

/-- Protocol text with one two-line `Form` enum block. -/
def c2_protos : String := "enum Form \x7b\nA = 0;\nB = 1;\n\x7d"

/-- The first `get_enum("Form", reverse=True)` call on a fresh cache. -/
def c2_first : Except PyErr EnumResult × EnumCache := get_enum [] c2_protos "Form" true

/-- A creature whose only raw evolution branch targets a template that is
absent from the catalog. -/
def c3_eevee : Pokemon :=
  { template := "EEVEE",
    raw := .jobj [("evolutionBranch", .jarr [.jobj [("evolution", .jstr "MISSING")]])] }

/-- First-generation protocol text (all three enums needed by a reload). -/
def c5_protos1 : String :=
  "enum Form \x7b\nA = 0;\n\x7d\nenum HoloTemporaryEvolutionId \x7b\nM = 1;\n\x7d\nenum HoloPokemonId \x7b\nP = 1;\n\x7d"

/-- Second-generation protocol text: same enum names, changed values. -/
def c5_protos2 : String :=
  "enum Form \x7b\nA = 7;\n\x7d\nenum HoloTemporaryEvolutionId \x7b\nM = 8;\n\x7d\nenum HoloPokemonId \x7b\nP = 9;\n\x7d"

/-- First-generation sources. -/
def c5_src1 : Sources := { protos := c5_protos1, locale_raw := [] }

/-- Second-generation sources. -/
def c5_src2 : Sources := { protos := c5_protos2, locale_raw := [] }

/-- The state after constructing on generation 1 and reloading with
generation 2. -/
def c5_state : Except PyErr PogoState := (pogo_init c5_src1).bind (reload c5_src2)

/-- What `get_enum("Form")` serves after that reload. -/
def c5_served : Option (Except PyErr EnumResult) :=
  match c5_state with
  | .ok st => some (get_enum st.cached_enums st.raw_protos "Form" false).1
  | .error _ => none

/-- The `types` length of a Pass-1 result, when the record was processed
without an exception. -/
def typesLenOf : Except PyErr Pokemon → Option Nat
  | .ok m => some m.types.length
  | .error _ => none

/-- A one-record settings dump whose payload has an empty-string subkey. -/
def c9_gm : List JVal :=
  [.jobj [("templateId", .jstr "V1"), ("data", .jobj [("", .jstr "inner"), ("y", .jnum 2)])]]

/-- A match predicate (standing for `re.search`) accepting that record. -/
def c9_p : String → Bool := fun t => pyStartswith t "V"

/-- A one-entry type list holding the Fire type. -/
def w10_types : List Entity := [[("template", .jstr "POKEMON_TYPE_FIRE"), ("id", .jnum 10)]]

/-- A catalog creature serving as an evolution target. -/
def w3_target : Pokemon := { template := "TARGET" }

/-- A creature with one plain branch (target present in the catalog) and
one temporary-evolution branch. -/
def w3_mon : Pokemon :=
  { template := "BASE",
    raw := .jobj [("evolutionBranch", .jarr
      [.jobj [("evolution", .jstr "TARGET")],
       .jobj [("temporaryEvolution", .jstr "MEGA"), ("evolution", .jstr "X")]])] }

/-- Truthiness of a `dict.get` result (`None` for a missing key is
falsy). -/
def optTruthy : Option JVal → Bool
  | some x => x.truthy
  | none => false

/-- Whether a record field is present and truthy. -/
def fieldTruthy (v : JVal) (k : String) : Bool :=
  match v with
  | .jobj f => optTruthy (assocGet f k)
  | _ => false

/-- The base creature Pass 1 produces from a one-type Bulbasaur record
against the one-entry Fire type list. -/
def w6_mon : Pokemon :=
  { template := "BULBASAUR", id := 1, form := .jnum 3, name := "Bulba",
    types := [some [("template", .jstr "POKEMON_TYPE_FIRE"), ("id", .jnum 10)]],
    raw := .jobj [("type", .jstr "FIRE")] }

/-- A three-record settings dump: two creature records (one without a
payload) and one item record. -/
def w9_gm : List JVal :=
  [.jobj [("templateId", .jstr "V0001_POKEMON_BULBASAUR"),
          ("data", .jobj [("pokemonSettings", .jobj [("type", .jstr "GRASS")])])],
   .jobj [("templateId", .jstr "ITEM_001"),
          ("data", .jobj [("itemSettings", .jobj [])])],
   .jobj [("templateId", .jstr "V0002_POKEMON_IVYSAUR")]]

/-- A match predicate accepting the two creature records. -/
def w9_p : String → Bool := fun t => pyStartswith t "V0"

/-! ## C1 -/

/-- C1: failing-input evaluation.  Querying the one-Pikachu catalog with
`template="PIKACHU", costume=5` raises `AttributeError` instead of
returning a costumed copy: `get_mon` passes the `costume` criterion into
`__get_object`, the stored entity's `costume == 0` fails that criterion,
no match is found, and `None.copy()` raises.  The same query without the
costume criterion finds the entity, showing the costume criterion alone
causes the failure. -/
theorem get_mon_costume_query_raises :
    get_mon [c1_pikachu] [("template", .jstr "PIKACHU"), ("costume", .jnum 5)] true
      = .error .attributeError
    ∧ get_mon [c1_pikachu] [("template", .jstr "PIKACHU")] true
      = .ok (.inl (some c1_pikachu))
    ∧ c1_pikachu.costume = .jnum 0 :=
  ⟨rfl, rfl, rfl⟩

/-! ## C2 -/

/-- C2: failing-input evaluation.  On `enum Form` with the two lines
`A = 0;` and `B = 1;`, the first `get_enum("Form", reverse=True)` call
parses both lines, caches the forward mapping and returns the inversion;
the second, cache-served call returns the *forward* mapping unchanged —
not the inversion the claim requires of every inverted call. -/
theorem get_enum_cached_reverse_not_inverted :
    c2_first = (.ok (.rev [((0:Int), "A"), (1, "B")]),
                [("form", [("A", (0:Int)), ("B", 1)])])
    ∧ (get_enum c2_first.2 c2_protos "Form" true).1 = .ok (.fwd [("A", 0), ("B", 1)])
    ∧ (get_enum c2_first.2 c2_protos "Form" true).1
      ≠ .ok (.rev (invertEnum [("A", 0), ("B", 1)])) := by
  refine ⟨rfl, rfl, ?_⟩
  have h2 : (get_enum c2_first.2 c2_protos "Form" true).1
      = .ok (.fwd [("A", 0), ("B", 1)]) := rfl
  rw [h2]
  intro h
  injection h with h'
  exact EnumResult.noConfusion h'

/-! ## C5 -/

/-- C5: failing-input evaluation.  Construct on generation-1 protocol
text, then reload with generation-2 text in which `Form` maps `A = 7`.
After the reload completes, `get_enum("Form")` still serves the
generation-1 mapping `A = 0` out of `self.__cached_enums` (which `reload`
never clears), while a fresh parse of the generation-2 text yields
`A = 7`. -/
theorem reload_serves_stale_enum :
    c5_served = some (.ok (.fwd [("A", 0)]))
    ∧ (get_enum [] c5_src2.protos "Form" false).1 = .ok (.fwd [("A", 7)])
    ∧ ([("A", (0:Int))] : List (String × Int)) ≠ [("A", 7)] := by
  refine ⟨rfl, rfl, by decide⟩

/-! ## C3: counterexample -/

/-- C3: counterexample.  A creature whose single (non-temporary) raw
evolution branch targets the template `"MISSING"`, absent from the
catalog: Pass 4 appends `None` to the creature's `evolutions` — the list
comes out as `[None]`, not the empty list the claim's "simply omitted"
requires. -/
theorem link_evolutions_appends_none :
    link_evolutions [c3_eevee] c3_eevee = .ok [none]
    ∧ link_evolutions [c3_eevee] c3_eevee ≠ .ok [] := by
  refine ⟨rfl, ?_⟩
  have h : link_evolutions [c3_eevee] c3_eevee = .ok [none] := rfl
  rw [h]
  intro hEq
  injection hEq with h'
  exact List.noConfusion h'

/-! ## C4: counterexample -/

/-- C4: counterexample.  With the well-formed (even-length) source array
`["ABC", "v"]`, the stored key `"ABC"` equals the query `"abc"` up to
case, yet `lookup_locale` returns `"?"` — and even the verbatim query
`"ABC"` returns `"?"` — because keys are stored verbatim while only the
query is lower-cased.  The claim's case-insensitive contract requires
`"v"` in both cases. -/
theorem get_locale_not_case_insensitive :
    build_locale ["ABC", "v"] = .ok [("ABC", "v")]
    ∧ lcStr "abc" = lcStr "ABC"
    ∧ get_locale [("ABC", "v")] "abc" = "?"
    ∧ get_locale [("ABC", "v")] "ABC" = "?"
    ∧ get_locale [("ABC", "v")] "abc" ≠ "v" := by
  refine ⟨rfl, by decide, rfl, rfl, by decide⟩

/-! ## C6: counterexample -/

/-- C6: counterexample.  A record matching the Pass-1 pattern whose
settings payload is the empty dict (as `get_gamemaster` yields for a
record without `pokemonSettings`) is processed without error and produces
`types` of length 0 — yet its secondary-type field is absent, so the
claim's "length exactly 1 iff `type2` absent or null" demands length 1. -/
theorem make_base_mon_types_iff_fails :
    typesLenOf (make_base_mon [] [] [] [] [] "V0001_POKEMON_BULBASAUR" (.jobj []))
      = some 0
    ∧ assocGet ([] : List (String × JVal)) "type2" = none
    ∧ typesLenOf (make_base_mon [] [] [] [] [] "V0001_POKEMON_BULBASAUR" (.jobj []))
      ≠ some 1 := by
  refine ⟨rfl, rfl, ?_⟩
  have h : typesLenOf (make_base_mon [] [] [] [] [] "V0001_POKEMON_BULBASAUR" (.jobj []))
      = some 0 := rfl
  rw [h]
  decide

/-! ## C9: counterexample -/

/-- C9: counterexample.  With the subkey `""` (a given, but empty,
subkey), `if settings:` is falsy, so `get_gamemaster` yields the whole
payload instead of the payload's value at subkey `""` — the claim's
"value at that subkey" requires the inner value `"inner"`. -/
theorem get_gamemaster_empty_subkey :
    get_gamemaster c9_p (some "") c9_gm
      = .ok [("V1", .jobj [("", .jstr "inner"), ("y", .jnum 2)])]
    ∧ get_gamemaster c9_p (some "") c9_gm ≠ .ok [("V1", .jstr "inner")] := by
  refine ⟨rfl, ?_⟩
  have h : get_gamemaster c9_p (some "") c9_gm
      = .ok [("V1", .jobj [("", .jstr "inner"), ("y", .jnum 2)])] := rfl
  rw [h]
  intro hEq
  injection hEq with h'
  have h2 := List.head_eq_of_cons_eq h'
  have h3 : JVal.jobj [("", .jstr "inner"), ("y", .jnum 2)] = .jstr "inner" :=
    congrArg Prod.snd h2
  exact JVal.noConfusion h3

/-! ## Shared helper lemmas -/

/-- Inserting a key makes it retrievable. -/
theorem assocGet_pyInsert_self {κ α : Type} [DecidableEq κ] :
    (d : List (κ × α)) → (k : κ) → (v : α) → assocGet (pyInsert d k v) k = some v
  | [], k, v => by simp [pyInsert, assocGet]
  | (k', v') :: rest, k, v => by
    by_cases hk : k' = k
    · simp [pyInsert, assocGet, hk]
    · simp [pyInsert, assocGet, hk]
      exact assocGet_pyInsert_self rest k v

/-- Inserting an absent key appends the pair. -/
theorem pyInsert_eq_append {κ α : Type} [DecidableEq κ] :
    (d : List (κ × α)) → (k : κ) → (v : α) → assocGet d k = none →
    pyInsert d k v = d ++ [(k, v)]
  | [], k, v, _ => rfl
  | (k', v') :: rest, k, v, h => by
    by_cases hk : k' = k
    · simp [assocGet, hk] at h
    · simp [pyInsert, hk]
      exact pyInsert_eq_append rest k v (by simpa [assocGet, hk] using h)

/-- Lookup skips a block of pairs whose keys all miss. -/
theorem assocGet_append_of_none {κ α : Type} [DecidableEq κ] :
    (a b : List (κ × α)) → (k : κ) → assocGet a k = none →
    assocGet (a ++ b) k = assocGet b k
  | [], b, k, _ => rfl
  | (k', v') :: rest, b, k, h => by
    by_cases hk : k' = k
    · simp [assocGet, hk] at h
    · simp [assocGet, hk] at h ⊢
      exact assocGet_append_of_none rest b k h

/-- A list is a `isPrefixOf`-prefix of itself extended. -/
theorem isPrefixOf_append_self {α : Type} [BEq α] [LawfulBEq α] :
    (l t : List α) → l.isPrefixOf (l ++ t) = true
  | [], _ => by simp [List.isPrefixOf]
  | a :: l, t => by simp [List.isPrefixOf, isPrefixOf_append_self l t]

/-- Without a `costume` criterion, `get_mon` is exactly `__get_object`. -/
theorem get_mon_no_costume (mons : List Pokemon) (args : List (String × JVal))
    (get_one : Bool) (h : assocGet args "costume" = none) :
    get_mon mons args get_one = .ok (get_object Pokemon.attr mons args get_one) := by
  simp [get_mon, h, pyGtZero]

/-- The locale-construction loop raises `IndexError` on any odd-length
array, whatever has been accumulated so far. -/
theorem buildLocaleGo_odd : (raw : List String) → (acc : List (String × String)) →
    raw.length % 2 = 1 → buildLocaleGo acc raw = .error .indexError
  | [], _, h => by simp at h
  | [_], _, _ => rfl
  | _ :: _ :: rest, acc, h => by
    have h' : rest.length % 2 = 1 := by simp [List.length_cons] at h; omega
    simpa [buildLocaleGo] using buildLocaleGo_odd rest (pyInsert acc _ _) h'

/-! ## C8 -/

/-- C8: for every odd-length locale source array, the locale loop inside
`reload` raises `IndexError` (no silent dropping or misalignment of the
trailing element), and the exception propagates out of `reload` to its
caller. -/
theorem locale_odd_length_fatal :
    ∀ (src : Sources) (st : PogoState),
    src.locale_raw.length % 2 = 1 →
    build_locale src.locale_raw = .error .indexError
    ∧ reload src st = .error .indexError := by
  intro src st h
  have hb : build_locale src.locale_raw = .error .indexError :=
    buildLocaleGo_odd src.locale_raw [] h
  exact ⟨hb, by simp [reload, hb]⟩

/-- C8 witness: the one-element array `["a"]` is odd-length; constructing
from it fails with `IndexError`. -/
theorem locale_odd_length_fatal_witness :
    build_locale ["a"] = .error .indexError
    ∧ reload { protos := "", locale_raw := ["a"] } {} = .error .indexError :=
  locale_odd_length_fatal { protos := "", locale_raw := ["a"] } {} (by decide)

/-! ## C10 -/

/-- C10: a `template` criterion not starting with `"POKEMON_TYPE_"` is
silently rewritten with that prefix by `get_type` before matching, so
querying with `s` and with `"POKEMON_TYPE_" ++ s` returns the same
entity; the other finders (`get_item`, `get_move`, `get_grunt`, and
`get_mon` when no costume criterion intervenes) pass their criteria to
`__get_object` unmodified. -/
theorem get_type_criterion_prefixing :
    ∀ (types items moves grunts : List Entity) (mons : List Pokemon)
      (args : List (String × JVal)) (s : String),
    (assocGet args "template" = some (.jstr s) →
      pyStartswith s "POKEMON_TYPE_" = false →
      get_type types args
        = .ok (get_object_one entityAttr types
            (pyInsert args "template" (.jstr ("POKEMON_TYPE_" ++ s))))
      ∧ get_type types args
        = get_type types (pyInsert args "template" (.jstr ("POKEMON_TYPE_" ++ s))))
    ∧ get_item items args = get_object_one entityAttr items args
    ∧ get_move moves args = get_object_one entityAttr moves args
    ∧ get_grunt grunts args = get_object_one entityAttr grunts args
    ∧ (assocGet args "costume" = none →
        get_mon mons args true = .ok (.inl (get_object_one Pokemon.attr mons args))) := by
  intro types items moves grunts mons args s
  refine ⟨?_, rfl, rfl, rfl, ?_⟩
  · intro h hpre
    have hstart : pyStartswith ("POKEMON_TYPE_" ++ s) "POKEMON_TYPE_" = true := by
      simp [pyStartswith, String.data_append, isPrefixOf_append_self]
    have hget : assocGet (pyInsert args "template" (.jstr ("POKEMON_TYPE_" ++ s)))
        "template" = some (.jstr ("POKEMON_TYPE_" ++ s)) :=
      assocGet_pyInsert_self args "template" _
    constructor
    · simp [get_type, h, hpre]
    · simp [get_type, h, hpre, hget, hstart]
  · intro h
    rw [get_mon_no_costume mons args true h]
    rfl

/-- C10 witness: `get_type(template="FIRE")` equals
`get_type(template="POKEMON_TYPE_FIRE")` on a concrete type list, and the
equal results find the Fire type; `get_mon` without a costume criterion is
plain `__get_object`. -/
theorem get_type_criterion_prefixing_witness :
    get_type w10_types [("template", JVal.jstr "FIRE")]
      = get_type w10_types
          (pyInsert [("template", JVal.jstr "FIRE")] "template"
            (JVal.jstr ("POKEMON_TYPE_" ++ "FIRE")))
    ∧ get_type w10_types [("template", JVal.jstr "FIRE")]
      = .ok (some [("template", .jstr "POKEMON_TYPE_FIRE"), ("id", .jnum 10)])
    ∧ get_mon [c1_pikachu] [("template", JVal.jstr "PIKACHU")] true
      = .ok (.inl (get_object_one Pokemon.attr [c1_pikachu]
          [("template", JVal.jstr "PIKACHU")])) :=
  ⟨((get_type_criterion_prefixing w10_types [] [] [] []
      [("template", JVal.jstr "FIRE")] "FIRE").1 rfl rfl).2,
   rfl,
   (get_type_criterion_prefixing [] [] [] [] [c1_pikachu]
      [("template", JVal.jstr "PIKACHU")] "PIKACHU").2.2.2.2 rfl⟩

/-! ## C7 -/

/-- The enum-block matcher only looks at the lower-cased pattern, so two
names equal up to case match identically at one position. -/
theorem matchEnumAt_congr (n1 n2 : List Char)
    (h : n1.map Char.toLower = n2.map Char.toLower) (t : List Char) :
    matchEnumAt n1 t = matchEnumAt n2 t := by
  have hlen : n1.length = n2.length := by
    have := congrArg List.length h
    simpa using this
  have hpat : (enumPat n1).map Char.toLower = (enumPat n2).map Char.toLower := by
    simp [enumPat, h]
  have hplen : (enumPat n1).length = (enumPat n2).length := by
    simp [enumPat, hlen]
  simp only [matchEnumAt, hpat, hplen]

/-- Two names equal up to case produce the same leftmost enum-block
match anywhere in the protocol text. -/
theorem findEnumMatch_congr (n1 n2 : List Char)
    (h : n1.map Char.toLower = n2.map Char.toLower) :
    (t : List Char) → findEnumMatch n1 t = findEnumMatch n2 t
  | [] => rfl
  | c :: rest => by
    rw [findEnumMatch, findEnumMatch, matchEnumAt_congr n1 n2 h (c :: rest)]
    cases matchEnumAt n2 (c :: rest) with
    | some m => rfl
    | none => exact findEnumMatch_congr n1 n2 h rest

/-- C7: for a name with no matching enum block (given a cache whose
non-empty entry for that name, if any, could only have come from a
matching block — the coherence that holds within one catalog generation),
`get_enum` raises `KeyError`, and — the failure having left the cache
unchanged — a second call for the same name raises again rather than
returning a stale cached miss; moreover the lookup is fully
case-insensitive in the name: names equal up to case give identical
results and identical cache updates. -/
theorem get_enum_missing_and_case_insensitive :
    (∀ (cache : EnumCache) (protos name : String) (rev : Bool),
      (∀ m, assocGet cache (lcStr name) = some m → m ≠ [] →
        findEnumMatch name.data protos.data ≠ none) →
      findEnumMatch name.data protos.data = none →
      get_enum cache protos name rev = (.error .keyError, cache)
      ∧ (get_enum (get_enum cache protos name rev).2 protos name rev).1
        = .error .keyError)
    ∧ (∀ (cache : EnumCache) (protos n1 n2 : String) (rev : Bool),
      lcStr n1 = lcStr n2 →
      get_enum cache protos n1 rev = get_enum cache protos n2 rev) := by
  constructor
  · intro cache protos name rev hcoh hmiss
    have hhit : (match assocGet cache (lcStr name) with
                 | some m => if m.isEmpty then none else some m
                 | none => none) = (none : Option (List (String × Int))) := by
      cases hm : assocGet cache (lcStr name) with
      | none => rfl
      | some m =>
        by_cases hme : m = []
        · simp [hme]
        · exact absurd hmiss (hcoh m hm hme)
    have h1 : get_enum cache protos name rev = (.error .keyError, cache) := by
      simp only [get_enum, hhit, hmiss]
    refine ⟨h1, ?_⟩
    rw [h1]
    rw [h1]
  · intro cache protos n1 n2 rev h
    have hd : n1.data.map Char.toLower = n2.data.map Char.toLower := by
      have := congrArg String.data h
      simpa [lcStr] using this
    simp only [get_enum, h, findEnumMatch_congr n1.data n2.data hd protos.data]

/-- C7 witness: on the empty cache with protocol text that has no enum
block, asking for `Costume` raises `KeyError` twice in a row; and the
names `FORM` and `form` resolve identically against a `Form` block. -/
theorem get_enum_missing_and_case_insensitive_witness :
    (get_enum [] "no enums here" "Costume" false = (.error .keyError, [])
      ∧ (get_enum (get_enum [] "no enums here" "Costume" false).2
          "no enums here" "Costume" false).1 = .error .keyError)
    ∧ get_enum [] c2_protos "FORM" true = get_enum [] c2_protos "form" true :=
  ⟨(get_enum_missing_and_case_insensitive.1 [] "no enums here" "Costume" false
      (fun m hm _ => by simp [assocGet] at hm) (by decide)),
   get_enum_missing_and_case_insensitive.2 [] c2_protos "FORM" "form" true (by decide)⟩

/-! ## C3: amended theorem -/

/-- Per-entry characterization of the Pass-4 loop on well-formed branch
entries: temporary branches are skipped, every other branch contributes
the first template-matching creature or `none`. -/
theorem link_loop_spec : ∀ (mons : List Pokemon) (entries : List JVal),
    entries.all wellFormedBranch = true →
    link_loop mons entries = .ok (entries.filterMap (branchResult mons))
  | _, [], _ => rfl
  | mons, e :: rest, h => by
    have he : wellFormedBranch e = true := by
      simp only [List.all_cons, Bool.and_eq_true] at h
      exact h.1
    have hrest : rest.all wellFormedBranch = true := by
      simp only [List.all_cons, Bool.and_eq_true] at h
      exact h.2
    have IH := link_loop_spec mons rest hrest
    cases e with
    | jobj f =>
      by_cases htemp : (assocGet f "temporaryEvolution").isSome
      · simp [link_loop, pyContains, htemp, branchResult, IH]
      · have hevo : ∃ d, assocGet f "evolution" = some d := by
          simp [wellFormedBranch, htemp] at he
          exact Option.isSome_iff_exists.mp he
        obtain ⟨d, hd⟩ := hevo
        have hnc : assocGet [("template", (assocGet f "form").getD d)] "costume"
            = none := by simp [assocGet]
        have hm := get_mon_no_costume mons
          [("template", (assocGet f "form").getD d)] true hnc
        simp [link_loop, pyContains, htemp, evo_target, hd, hm, get_object,
              branchResult, IH]
    | jnull => simp [wellFormedBranch] at he
    | jbool b => simp [wellFormedBranch] at he
    | jnum n => simp [wellFormedBranch] at he
    | jstr s => simp [wellFormedBranch] at he
    | jarr xs => simp [wellFormedBranch] at he

/-- C3 (amended): for every creature and its raw evolution-branch
entries, Pass 4 skips the entries denoting a temporary evolution; every
other entry appends the first creature whose template equals the target
template (form-specific field preferred, else the plain evolution field),
and — the amendment — for target templates absent from the list a *null
reference* is appended to `evolutions` (the entry is not omitted, though
no exception is raised). -/
theorem link_evolutions_amended :
    ∀ (mons : List Pokemon) (mon : Pokemon) (fields : List (String × JVal))
      (entries : List JVal),
    mon.raw = .jobj fields →
    assocGet fields "evolutionBranch" = some (.jarr entries) →
    entries.all wellFormedBranch = true →
    link_evolutions mons mon = .ok (entries.filterMap (branchResult mons)) := by
  intro mons mon fields entries hraw hget hwf
  simp [link_evolutions, jRawGet, hraw, hget, pyIter]
  exact link_loop_spec mons entries hwf

/-- C3 witness: on a concrete two-creature catalog, the amended Pass-4
semantics holds and evaluates to exactly one linked target (the temporary
branch skipped, the plain branch resolved). -/
theorem link_evolutions_amended_witness :
    link_evolutions [w3_target, w3_mon] w3_mon
      = .ok ([JVal.jobj [("evolution", .jstr "TARGET")],
              .jobj [("temporaryEvolution", .jstr "MEGA"), ("evolution", .jstr "X")]].filterMap
             (branchResult [w3_target, w3_mon]))
    ∧ link_evolutions [w3_target, w3_mon] w3_mon = .ok [some w3_target] :=
  ⟨link_evolutions_amended [w3_target, w3_mon] w3_mon _ _ rfl rfl (by decide), rfl⟩

/-! ## C4: amended theorem -/

/-- On an even-length source array whose keys are pairwise distinct and
absent from the accumulator, the construction loop appends the
consecutive pairs in order. -/
theorem buildLocaleGo_even :
    (raw : List String) → (acc : List (String × String)) →
    raw.length % 2 = 0 →
    (∀ k ∈ evenKeys raw, assocGet acc k = none) →
    (evenKeys raw).Nodup →
    buildLocaleGo acc raw = .ok (acc ++ chunkPairs raw)
  | [], acc, _, _, _ => by simp [buildLocaleGo, chunkPairs]
  | [x], _, h, _, _ => by simp at h
  | k :: v :: rest, acc, h, hdisj, hnd => by
    have h' : rest.length % 2 = 0 := by
      simp [List.length_cons] at h
      omega
    have hek : evenKeys (k :: v :: rest) = k :: evenKeys rest := rfl
    rw [hek] at hnd hdisj
    have hkacc : assocGet acc k = none := hdisj k (List.mem_cons_self k _)
    have hknotin : k ∉ evenKeys rest := (List.nodup_cons.mp hnd).1
    have hnd' : (evenKeys rest).Nodup := (List.nodup_cons.mp hnd).2
    have hdisj' : ∀ k' ∈ evenKeys rest, assocGet (acc ++ [(k, v)]) k' = none := by
      intro k' hk'
      have h1 : assocGet acc k' = none := hdisj k' (List.mem_cons_of_mem k hk')
      rw [assocGet_append_of_none acc [(k, v)] k' h1]
      have hne : k ≠ k' := fun hkk => hknotin (hkk ▸ hk')
      simp [assocGet, hne]
    have IH := buildLocaleGo_even rest (acc ++ [(k, v)]) h' hdisj' hnd'
    calc buildLocaleGo acc (k :: v :: rest)
        = buildLocaleGo (pyInsert acc k v) rest := rfl
      _ = buildLocaleGo (acc ++ [(k, v)]) rest := by rw [pyInsert_eq_append acc k v hkacc]
      _ = .ok (acc ++ [(k, v)] ++ chunkPairs rest) := IH
      _ = .ok (acc ++ chunkPairs (k :: v :: rest)) := by simp [chunkPairs]

/-- Looking the lower-cased query up in the built table is the same as
scanning the flat array in consecutive pairs. -/
theorem spec_lookup_eq : (raw : List String) → (q : String) →
    (assocGet (chunkPairs raw) (lcStr q)).getD "?" = spec_lookup_locale q raw
  | [], _ => rfl
  | [x], _ => rfl
  | k :: v :: rest, q => by
    by_cases hk : k = lcStr q
    · simp [chunkPairs, assocGet, spec_lookup_locale, hk]
    · simp [chunkPairs, assocGet, spec_lookup_locale, hk, spec_lookup_eq rest q]

/-- C4 (amended): on every well-formed (even-length) locale source array
with distinct keys, `lookup_locale` lower-cases the *query* key and
returns the value immediately following the stored key that equals that
lower-cased query verbatim (so the lookup is case-insensitive only in the
query, not in the stored keys), and returns `"?"` when no stored key
equals it; it never raises. -/
theorem lookup_locale_amended :
    ∀ (raw : List String) (loc : List (String × String)) (q : String),
    raw.length % 2 = 0 →
    (evenKeys raw).Nodup →
    build_locale raw = .ok loc →
    get_locale loc q = spec_lookup_locale q raw := by
  intro raw loc q heven hnd hbuild
  have hb : build_locale raw = .ok (chunkPairs raw) := by
    have := buildLocaleGo_even raw [] heven (by intro k _; rfl) hnd
    simpa [build_locale] using this
  rw [hbuild] at hb
  injection hb with hloc
  rw [hloc]
  exact spec_lookup_eq raw q

/-- C4 witness: on the scenario array, the amended lookup holds and the
known key (queried in upper case) evaluates to `"Pikachu"` while an
unknown key evaluates to `"?"`. -/
theorem lookup_locale_amended_witness :
    get_locale [("pokemon_name_0025", "Pikachu")] "POKEMON_NAME_0025"
      = spec_lookup_locale "POKEMON_NAME_0025" ["pokemon_name_0025", "Pikachu"]
    ∧ get_locale [("pokemon_name_0025", "Pikachu")] "POKEMON_NAME_0025" = "Pikachu"
    ∧ get_locale [("pokemon_name_0025", "Pikachu")] "missing_key" = "?" :=
  ⟨lookup_locale_amended ["pokemon_name_0025", "Pikachu"]
      [("pokemon_name_0025", "Pikachu")] "POKEMON_NAME_0025"
      (by decide) (by decide) rfl,
   rfl, rfl⟩

/-! ## C6: amended theorem -/

/-- One `__typing` loop iteration contributes one element exactly when the
raw field is present and truthy. -/
theorem typingOne_length :
    ∀ (tl : List Entity) (v : Option JVal) (r : List (Option Entity)),
    typingOne tl v = .ok r → r.length = if optTruthy v then 1 else 0 := by
  intro tl v r h
  cases v with
  | none =>
    simp [typingOne] at h
    simp [optTruthy, ← h]
  | some x =>
    by_cases hx : x.truthy
    · simp [typingOne, hx] at h
      cases hg : get_type tl [("template", x)] with
      | error e => rw [hg] at h; exact absurd h (by simp)
      | ok res =>
        rw [hg] at h
        simp at h
        simp [optTruthy, hx, ← h]
    · simp [typingOne, hx] at h
      simp [optTruthy, hx, ← h]

/-- `__typing` produces one entry per truthy raw type field. -/
theorem typing_types_length :
    ∀ (tl : List Entity) (f : List (String × JVal)) (t1 t2 : String)
      (tps : List (Option Entity)),
    typing_types tl (.jobj f) t1 t2 = .ok tps →
    tps.length = (if optTruthy (assocGet f t1) then 1 else 0)
               + (if optTruthy (assocGet f t2) then 1 else 0) := by
  intro tl f t1 t2 tps h
  simp only [typing_types, jRawGet] at h
  cases h1 : typingOne tl (assocGet f t1) with
  | error e => rw [h1] at h; exact absurd h (by simp)
  | ok r1 =>
    cases h2 : typingOne tl (assocGet f t2) with
    | error e => rw [h1, h2] at h; exact absurd h (by simp)
    | ok r2 =>
      rw [h1, h2] at h
      simp at h
      rw [← h, List.length_append,
          typingOne_length tl _ r1 h1, typingOne_length tl _ r2 h2]

/-- C6 (amended): every base creature Pass 1 produces has `types` of
length at most 2; and — the amendment — *provided the record's
primary-type field is present and truthy*, the length is exactly 1 iff
the secondary-type field is absent, null or otherwise falsy (for a record
with no truthy primary-type field the length can be 0 or 1, refuting the
claim's unconditional "length 1 iff `type2` absent/null"). -/
theorem make_base_mon_types_amended :
    ∀ (types_list moves : List Entity) (forms mon_ids : List (String × Int))
      (locale : List (String × String)) (templateid : String) (entry : JVal)
      (mon : Pokemon),
    make_base_mon types_list moves forms mon_ids locale templateid entry = .ok mon →
    mon.types.length ≤ 2
    ∧ (fieldTruthy entry "type" = true →
        (mon.types.length = 1 ↔ fieldTruthy entry "type2" = false)) := by
  intro tl mv forms ids loc tid entry mon h
  simp only [make_base_mon, Pokemon.init] at h
  cases hq : resolveMoves mv entry "quickMoves" with
  | error e => rw [hq] at h; exact absurd h (by simp)
  | ok qm =>
    cases hc : resolveMoves mv entry "cinematicMoves" with
    | error e => rw [hq, hc] at h; exact absurd h (by simp)
    | ok cm =>
      cases ht : typing_types tl entry "type" "type2" with
      | error e => rw [hq, hc, ht] at h; exact absurd h (by simp)
      | ok tps =>
        rw [hq, hc, ht] at h
        simp at h
        have htypes : mon.types = tps := by rw [← h]
        cases entry with
        | jobj f =>
          have hlen := typing_types_length tl f "type" "type2" tps ht
          rw [htypes, hlen]
          cases hA : optTruthy (assocGet f "type") <;>
            cases hB : optTruthy (assocGet f "type2") <;>
              simp [fieldTruthy, hA, hB]
        | jnull => simp [typing_types, jRawGet] at ht
        | jbool b => simp [typing_types, jRawGet] at ht
        | jnum n => simp [typing_types, jRawGet] at ht
        | jstr s => simp [typing_types, jRawGet] at ht
        | jarr xs => simp [typing_types, jRawGet] at ht

/-- C6 witness: the scenario record with a truthy primary type and no
secondary type evaluates through Pass 1 to a creature with exactly one
resolved type, satisfying the amended biconditional. -/
theorem make_base_mon_types_amended_witness :
    make_base_mon w10_types [] [("BULBASAUR", 3)] [("BULBASAUR", 1)]
      [("pokemon_name_0001", "Bulba")] "V0001_POKEMON_BULBASAUR"
      (.jobj [("type", .jstr "FIRE")]) = .ok w6_mon
    ∧ (w6_mon.types.length ≤ 2
       ∧ (fieldTruthy (.jobj [("type", .jstr "FIRE")]) "type" = true →
          (w6_mon.types.length = 1
            ↔ fieldTruthy (.jobj [("type", .jstr "FIRE")]) "type2" = false))) :=
  ⟨rfl, make_base_mon_types_amended w10_types [] [("BULBASAUR", 3)] [("BULBASAUR", 1)]
      [("pokemon_name_0001", "Bulba")] "V0001_POKEMON_BULBASAUR"
      (.jobj [("type", .jstr "FIRE")]) w6_mon rfl⟩

/-! ## C9: amended theorem -/

/-- C9 (amended): for every match predicate (standing for `re.search` on
the pattern) and optional subkey, on records that cannot make the
traversal raise, `select` yields exactly the records whose `templateId`
satisfies the predicate, in input order; the yielded data is the whole
payload, except that a *non-empty* subkey selects the payload's value at
that subkey (empty mapping when absent) — an empty-string subkey is
treated as not given (Python truthiness of `settings`). -/
theorem get_gamemaster_amended : ∀ (p : String → Bool) (settings : Option String)
    (gm : List JVal), gm.all (gmEntryOk settings) = true →
    get_gamemaster p settings gm = .ok (gm_select p settings gm)
  | _, _, [], _ => rfl
  | p, settings, entry :: rest, h => by
    have he : gmEntryOk settings entry = true := by
      simp only [List.all_cons, Bool.and_eq_true] at h
      exact h.1
    have hrest : rest.all (gmEntryOk settings) = true := by
      simp only [List.all_cons, Bool.and_eq_true] at h
      exact h.2
    have IH := get_gamemaster_amended p settings rest hrest
    cases entry with
    | jobj f =>
      simp only [gmEntryOk, Bool.and_eq_true] at he
      cases htid : (assocGet f "templateId").getD (.jstr "") with
      | jstr tid =>
        by_cases hp : p tid
        · by_cases hs : settingsTruthy settings
          · have hdata : ∃ df, (assocGet f "data").getD (.jobj []) = .jobj df := by
              rw [htid] at he
              rcases he with ⟨_, he2⟩
              rw [hs] at he2
              simp at he2
              cases hd : (assocGet f "data").getD (.jobj []) with
              | jobj df => exact ⟨df, rfl⟩
              | jnull => rw [hd] at he2; simp at he2
              | jbool b => rw [hd] at he2; simp at he2
              | jnum n => rw [hd] at he2; simp at he2
              | jstr s => rw [hd] at he2; simp at he2
              | jarr xs => rw [hd] at he2; simp at he2
            obtain ⟨df, hdf⟩ := hdata
            simp [get_gamemaster, gm_select, htid, hp, hs, hdf, IH, jobjGetD]
          · simp [get_gamemaster, gm_select, htid, hp, hs, IH]
        · simp [get_gamemaster, gm_select, htid, hp, IH]
      | jnull => rw [htid] at he; simp at he
      | jbool b => rw [htid] at he; simp at he
      | jnum n => rw [htid] at he; simp at he
      | jarr xs => rw [htid] at he; simp at he
      | jobj g => rw [htid] at he; simp at he
    | jnull => simp [gmEntryOk] at he
    | jbool b => simp [gmEntryOk] at he
    | jnum n => simp [gmEntryOk] at he
    | jstr s => simp [gmEntryOk] at he
    | jarr xs => simp [gmEntryOk] at he

/-- C9 witness: with the subkey `pokemonSettings`, the amended contract
holds on a concrete dump, and it evaluates to the two creature records in
input order — the first with its settings payload, the second (which has
no payload) with the empty mapping. -/
theorem get_gamemaster_amended_witness :
    w9_gm.all (gmEntryOk (some "pokemonSettings")) = true
    ∧ get_gamemaster w9_p (some "pokemonSettings") w9_gm
      = .ok (gm_select w9_p (some "pokemonSettings") w9_gm)
    ∧ get_gamemaster w9_p (some "pokemonSettings") w9_gm
      = .ok [("V0001_POKEMON_BULBASAUR", .jobj [("type", .jstr "GRASS")]),
             ("V0002_POKEMON_IVYSAUR", .jobj [])] :=
  ⟨by decide,
   get_gamemaster_amended w9_p (some "pokemonSettings") w9_gm (by decide),
   rfl⟩
